import Mathlib

/-!
# Verification of the lpc55-hal register-proxy mechanism and RNG driver

A shallow embedding of `src/reg_proxy.rs` (ownable register proxies) and
`src/rng.rs` (typestate-guarded RNG peripheral driver), with theorems
settling the specification's claims about them.

Modelling conventions:
* A memory-mapped register address is a `Nat`.
* Hardware register reads are indexed by a global read counter: a trace
  `Nat → α` gives the value a register holds at the time of the t-th read,
  and every operation that reads hardware threads this counter explicitly.
* Busy-wait loops with no a-priori bound take explicit fuel and return
  `Option`; `none` models the loop not having terminated within the fuel.
* The target chip (LPC55S6x, Cortex-M33) is little-endian, so "native byte
  order" (`u32::to_ne_bytes`) is modelled as little-endian.
-/

namespace Lpc55Hal

/-! ## Register proxies (`src/reg_proxy.rs`) -/

/-- A single hardware interaction with a memory-mapped register. -/
inductive Access
  | read (addr : Nat)
  | write (addr : Nat)
deriving DecidableEq

/-- Capability descriptor for a single register: the trait `Reg`
(reg_proxy.rs lines 22-34).  An implementer statically fixes a target type
and an argument-free address function `fn get() -> *const Self::Target`.
Since `get` takes no arguments and is required to return an address valid
for the whole program, it is embedded as one fixed address. -/
structure Reg where
  get : Nat

/-- Capability descriptor for a register cluster: the trait `RegCluster`
(reg_proxy.rs lines 104-116); `get` returns a pointer to a contiguous run
of identical registers, modelled as its base address plus element count. -/
structure RegCluster where
  get : Nat
  len : Nat

/-- `RegProxy<T>` (reg_proxy.rs lines 66-71): its only field is
`PhantomData`, so the embedded structure has no fields; the descriptor is
the type parameter. -/
structure RegProxy (d : Reg)

/-- `RegClusterProxy<T>` (reg_proxy.rs lines 143-148). -/
structure RegClusterProxy (c : RegCluster)

/-- `RegProxy::new` (reg_proxy.rs lines 79-83), instrumented with the list
of hardware accesses its body performs.  The body only builds the
`PhantomData` marker, so the access list is empty. -/
def RegProxy.newTraced (d : Reg) : RegProxy d × List Access :=
  (⟨⟩, [])

/-- `RegClusterProxy::new` (reg_proxy.rs lines 155-159), instrumented
likewise: the body builds only the marker. -/
def RegClusterProxy.newTraced (c : RegCluster) : RegClusterProxy c × List Access :=
  (⟨⟩, [])

/-- Constructing `n` proxies for the same descriptor, collecting every
hardware access performed along the way. -/
def constructProxies (d : Reg) : Nat → List (RegProxy d) × List Access
  | 0 => ([], [])
  | n + 1 =>
    let p := RegProxy.newTraced d
    let r := constructProxies d n
    (p.1 :: r.1, p.2 ++ r.2)

/-- Constructing `n` cluster proxies for the same descriptor. -/
def constructClusterProxies (c : RegCluster) : Nat → List (RegClusterProxy c) × List Access
  | 0 => ([], [])
  | n + 1 =>
    let p := RegClusterProxy.newTraced c
    let r := constructClusterProxies c n
    (p.1 :: r.1, p.2 ++ r.2)

/-- `<RegProxy<T> as Deref>::deref` (reg_proxy.rs lines 88-102): the body is
`&*T::get()`, a reference to the address produced by the descriptor's
address function; the proxy value itself carries no data and is ignored. -/
def RegProxy.deref (d : Reg) (_p : RegProxy d) : Nat :=
  d.get

/-- `<RegClusterProxy<T> as Deref>::deref` (reg_proxy.rs lines 164-173):
a slice reference to the descriptor's cluster, modelled as base and length. -/
def RegClusterProxy.deref (c : RegCluster) (_p : RegClusterProxy c) : Nat × Nat :=
  (c.get, c.len)

/-- Shape of a `Send` impl declaration: whether it is declared, and how many
trait bounds it carries beyond the capability bound itself. -/
structure SendImplInfo where
  declared : Bool
  extra_bounds : Nat
deriving DecidableEq

/-- Transcription of `unsafe impl<T> Send for RegProxy<T> where T: Reg {}`
(reg_proxy.rs line 86): declared, with no bound beyond `T: Reg`. -/
def regProxySendImpl : SendImplInfo :=
  { declared := true, extra_bounds := 0 }

/-- Transcription of `unsafe impl<T> Send for RegClusterProxy<T> where
T: RegCluster {}` (reg_proxy.rs line 162). -/
def regClusterProxySendImpl : SendImplInfo :=
  { declared := true, extra_bounds := 0 }

/-! ## RNG driver data model (`src/rng.rs`) -/

/-- The raw register block `raw::RNG` handed out by the vendor layer.  It is
a zero-sized handle identifying one peripheral instance; identity is
modelled by a base-address token, so that "the same block by identity" is
plain equality. -/
structure RNG where
  id : Nat
deriving DecidableEq

/-- The typestate tags `init_state::Disabled` / `init_state::Enabled`. -/
inductive InitState
  | disabled
  | enabled
deriving DecidableEq

/-- Modelled from the spec: the clock controller `Syscon` (its source is not
part of this repository's files; only rng.rs's calls to it are).  Per the
spec's collaborator contract it exposes `enable_clock(&mut raw_block)` and
`disable_clock(&mut raw_block)`, which gate or ungate the peripheral's
functional clock in the controller's own state and are assumed infallible;
the raw block is used to identify the peripheral and is returned unchanged. -/
structure Syscon where
  rngClockEnabled : Bool
deriving DecidableEq

/-- Modelled from the spec: gate the RNG clock on. -/
def Syscon.enable_clock (_s : Syscon) (raw : RNG) : Syscon × RNG :=
  ({ rngClockEnabled := true }, raw)

/-- Modelled from the spec: gate the RNG clock off. -/
def Syscon.disable_clock (_s : Syscon) (raw : RNG) : Syscon × RNG :=
  ({ rngClockEnabled := false }, raw)

/-- `Rng<State>` (rng.rs lines 7-10): the raw block plus a phantom state
tag, embedded as an index.  Note the Rust default `State = init_state::Enabled`. -/
structure Rng (s : InitState) where
  raw : RNG
deriving DecidableEq

/-- `Rng::new` (rng.rs lines 42-47), private, in `impl Rng<init_state::Disabled>`. -/
def Rng.new (rng : RNG) : Rng InitState.disabled :=
  ⟨rng⟩

/-- `wrap` (rng.rs lines 21-23): infallible construction in the `Disabled` state. -/
def wrap (rng : RNG) : Rng InitState.disabled :=
  Rng.new rng

/-- `Rng::<Disabled>::enabled` (rng.rs lines 49-56): asks the clock
controller to enable the clock, then rebuilds the handle around the same
`self.raw` with the `Enabled` tag.  The updated controller is returned
explicitly (it is `&mut` in the source). -/
def Rng.enabled (r : Rng InitState.disabled) (sc : Syscon) : Rng InitState.enabled × Syscon :=
  let p := sc.enable_clock r.raw
  (⟨p.2⟩, p.1)

/-- `Rng::<Enabled>::disabled` (rng.rs lines 117-124): the inverse transition. -/
def Rng.disabled (r : Rng InitState.enabled) (sc : Syscon) : Rng InitState.disabled × Syscon :=
  let p := sc.disable_clock r.raw
  (⟨p.2⟩, p.1)

/-- `Rng::release` (rng.rs lines 36-38): `self.raw`.  The surrounding block
is the bare `impl Rng` (rng.rs line 25); by Rust's type-parameter default on
`struct Rng<State = init_state::Enabled>` that block is
`impl Rng<init_state::Enabled>`, so `release` exists on `Enabled` handles. -/
def Rng.release (r : Rng InitState.enabled) : RNG :=
  r.raw

/-- The four bit-fields of the `MODULEID` register as svd2rust exposes them
(`id`, `maj_rev`, `min_rev`, `aperture`); their packing into the 32-bit word
lives in the external vendor layer, so one read is modelled as this record. -/
structure RawModuleIdFields where
  id : Nat
  maj_rev : Nat
  min_rev : Nat
  aperture : Nat
deriving DecidableEq

/-- The returned record `ModuleId` (rng.rs lines 14-19). -/
structure ModuleId where
  id : Nat
  maj_rev : Nat
  min_rev : Nat
  aperture : Nat
deriving DecidableEq

/-- `Rng::module_id` (rng.rs lines 27-34).  `m` is the trace of values the
`MODULEID` register holds at each read; `t` is the global read counter.
Each field of the struct literal performs its own `self.raw.moduleid.read()`,
in the written order (id, maj_rev, min_rev, aperture), so the four fields
come from reads `t`, `t+1`, `t+2`, `t+3`; the advanced counter is returned. -/
def module_id (m : Nat → RawModuleIdFields) (t : Nat) : ModuleId × Nat :=
  ({ id := (m t).id
     maj_rev := (m (t + 1)).maj_rev
     min_rev := (m (t + 2)).min_rev
     aperture := (m (t + 3)).aperture }, t + 4)

/-- A trace of `MODULEID` reads in which every read returns a snapshot whose
four fields all equal the read index: used to separate per-field reads from
a single-snapshot read. -/
def snapshotTrace : Nat → RawModuleIdFields :=
  fun t => ⟨t, t, t, t⟩

/-- The inner busy loop of `get_random_u32` (rng.rs line 128):
`while self.raw.counter_val.read().refresh_cnt() == 0 {}`.  `refresh t` is
the value of the `refresh_cnt` field at the t-th hardware read; each check
of the condition is one read.  Returns the read counter just after the
first read that observed a non-zero value, or `none` if `fuel` reads all
observed zero. -/
def waitNonzero (refresh : Nat → Nat) : Nat → Nat → Option Nat
  | _, 0 => none
  | t, fuel + 1 =>
    if refresh t = 0 then waitNonzero refresh (t + 1) fuel else some (t + 1)

/-- The outer `for _ in 0..32` loop of `get_random_u32` (rng.rs lines
127-131), generalized over the iteration count: runs `rounds` copies of the
busy loop, each with `fuel` available reads. -/
def pollRounds (refresh : Nat → Nat) (fuel : Nat) : Nat → Nat → Option Nat
  | t, 0 => some t
  | t, rounds + 1 =>
    match waitNonzero refresh t fuel with
    | none => none
    | some t1 => pollRounds refresh fuel t1 rounds

/-- `Rng::get_random_u32` (rng.rs lines 126-133): 32 rounds of busy-waiting
on `refresh_cnt`, then one read of `random_number` (whose trace is
`random`).  Returns the random word together with the advanced read counter. -/
def get_random_u32 (refresh random : Nat → Nat) (t fuel : Nat) : Option (Nat × Nat) :=
  match pollRounds refresh fuel t 32 with
  | none => none
  | some t1 => some (random t1, t1 + 1)

/-- How many of the `n` reads starting at read counter `t` observe a
non-zero `refresh_cnt`. -/
def nonzeroObs (refresh : Nat → Nat) : Nat → Nat → Nat
  | _, 0 => 0
  | t, n + 1 => (if refresh t = 0 then 0 else 1) + nonzeroObs refresh (t + 1) n

/-- The uninhabited error type `pub enum Error {}` (rng.rs lines 136-137). -/
inductive Error
deriving DecidableEq

/-- `u32::to_ne_bytes` on the little-endian target: the four bytes of `w`,
least significant first. -/
def to_ne_bytes (w : Nat) : List Nat :=
  [w % 256, w / 2 ^ 8 % 256, w / 2 ^ 16 % 256, w / 2 ^ 24 % 256]

/-- The loop of `<Rng as Read>::read` (rng.rs lines 142-156).  `words k` is
the k-th word `get_random_u32` yields; the buffer is a byte list whose
length is the Rust slice's length.  Per iteration: fetch one word, write
`n = min 4 (remaining length)` of its native-order bytes, advance.  The
result is the final buffer contents and the number of random-word reads
performed.  `fuel` bounds the iterations; every iteration consumes at least
one buffer byte, so `fuel = buffer.length` always suffices. -/
def readLoop (words : Nat → Nat) : Nat → Nat → List Nat → List Nat × Nat
  | 0, _, buf => (buf, 0)
  | _ + 1, _, [] => ([], 0)
  | fuel + 1, k, b :: bs =>
    let bytes := to_ne_bytes (words k)
    let n := min 4 (b :: bs).length
    let rest := readLoop words fuel (k + 1) ((b :: bs).drop n)
    (bytes.take n ++ rest.1, rest.2 + 1)

/-- `<Rng as embedded_hal::blocking::rng::Read>::read` (rng.rs lines
139-156): runs the loop to fill the buffer and ends in `Ok(())`; the filled
buffer and the read count are returned through the `Except` for observation. -/
def read (words : Nat → Nat) (k : Nat) (buffer : List Nat) : Except Error (List Nat × Nat) :=
  Except.ok (readLoop words buffer.length k buffer)

/-! ## Which method is available in which typestate

`struct Rng<State = init_state::Enabled>` (rng.rs line 7) declares a type
parameter default, so the bare `impl Rng` block (rng.rs lines 25-39) and the
trait impl `impl Read for Rng` (rng.rs line 139) attach to
`Rng<init_state::Enabled>`.  The tables below transcribe, per state, which
methods the three impl blocks and the trait impl provide, and which of them
are `pub`. -/

/-- The methods of `Rng<State>`, by name.  `init_entropy` stands for the
source's private, dead `initialize_entropy` method (rng.rs lines 63-115). -/
inductive RngOp
  | new
  | enabled
  | disabled
  | release
  | module_id
  | get_random_u32
  | init_entropy
  | read
deriving DecidableEq

/-- The impl block each method sits in, per state (rng.rs lines 25-39: the
defaulted `impl Rng`, i.e. `Rng<Enabled>`; lines 41-58: `impl Rng<Disabled>`;
lines 60-134: `impl Rng<Enabled>`; lines 139-156: `impl Read for Rng`, i.e.
for `Rng<Enabled>`). -/
def methodsIn : InitState → List RngOp
  | InitState.disabled => [RngOp.new, RngOp.enabled]
  | InitState.enabled =>
    [RngOp.module_id, RngOp.release, RngOp.init_entropy, RngOp.disabled,
     RngOp.get_random_u32, RngOp.read]

/-- Visibility: `fn new` and `fn initialize_entropy` carry no `pub`; every
other method (and the trait method `read`) is callable from outside. -/
def isPub : RngOp → Bool
  | RngOp.new => false
  | RngOp.init_entropy => false
  | _ => true

/-- A method is available on a handle in state `s` iff an impl block for
`Rng<s>` provides it and it is public. -/
def available (s : InitState) (op : RngOp) : Bool :=
  decide (op ∈ methodsIn s) && isPub op

/-- A concrete `refresh_cnt` trace for exercising `get_random_u32`: zero for
the first three reads, non-zero from then on. -/
def wRefresh : Nat → Nat :=
  fun t => if t < 3 then 0 else 1

/-- A concrete `random_number` trace. -/
def wRandom : Nat → Nat :=
  fun t => t + 210

/-! ## Theorems -/

/-- Counting non-zero observations splits over adjacent read ranges. -/
lemma nonzeroObs_add (refresh : Nat → Nat) :
    ∀ (a b t : Nat),
      nonzeroObs refresh t (a + b) =
        nonzeroObs refresh t a + nonzeroObs refresh (t + a) b := by
  intro a
  induction a with
  | zero => intro b t; simp [nonzeroObs]
  | succ a ih =>
    intro b t
    have h1 : a + 1 + b = (a + b) + 1 := by omega
    rw [h1, nonzeroObs, nonzeroObs, ih b (t + 1)]
    have h2 : t + 1 + a = t + (a + 1) := by omega
    rw [h2]
    omega

/-- If one busy-wait round exits, the reads it performed observed exactly
one non-zero refresh counter (the final read), and the counter advanced. -/
lemma waitNonzero_spec (refresh : Nat → Nat) :
    ∀ (fuel t t1 : Nat), waitNonzero refresh t fuel = some t1 →
      t < t1 ∧ nonzeroObs refresh t (t1 - t) = 1 := by
  intro fuel
  induction fuel with
  | zero => intro t t1 h; exact absurd h (by simp [waitNonzero])
  | succ fuel ih =>
    intro t t1 h
    rw [waitNonzero] at h
    by_cases h0 : refresh t = 0
    · rw [if_pos h0] at h
      obtain ⟨hlt, hcnt⟩ := ih (t + 1) t1 h
      refine ⟨by omega, ?_⟩
      have h1 : t1 - t = 1 + (t1 - (t + 1)) := by omega
      rw [h1, nonzeroObs_add refresh 1 (t1 - (t + 1)) t, hcnt]
      simp [nonzeroObs, h0]
    · rw [if_neg h0] at h
      obtain rfl : t + 1 = t1 := by injection h
      refine ⟨by omega, ?_⟩
      have h1 : t + 1 - t = 1 := by omega
      rw [h1]
      simp [nonzeroObs, h0]

/-- If `rounds` busy-wait rounds all exit, exactly `rounds` reads observed a
non-zero refresh counter, and the read counter advanced by at least
`rounds`. -/
lemma pollRounds_spec (refresh : Nat → Nat) (fuel : Nat) :
    ∀ (rounds t t1 : Nat), pollRounds refresh fuel t rounds = some t1 →
      t + rounds ≤ t1 ∧ nonzeroObs refresh t (t1 - t) = rounds := by
  intro rounds
  induction rounds with
  | zero =>
    intro t t1 h
    obtain rfl : t = t1 := by
      simpa [pollRounds] using h
    simp [nonzeroObs]
  | succ rounds ih =>
    intro t t1 h
    rw [pollRounds] at h
    cases hw : waitNonzero refresh t fuel with
    | none => rw [hw] at h; cases h
    | some tm =>
      rw [hw] at h
      obtain ⟨hlt, hone⟩ := waitNonzero_spec refresh fuel t tm hw
      obtain ⟨hle, hcnt⟩ := ih tm t1 h
      refine ⟨by omega, ?_⟩
      have h1 : t1 - t = (tm - t) + (t1 - tm) := by omega
      rw [h1, nonzeroObs_add refresh (tm - t) (t1 - tm) t]
      have h2 : t + (tm - t) = tm := by omega
      rw [h2, hone, hcnt]
      omega

/-- Claim C1, counterexample: `release` is not available on a `Disabled`
handle — the bare `impl Rng` block that holds it attaches, through the
struct's type-parameter default, to `Rng<init_state::Enabled>` only, so the
spec's "available in any state" fails in the `Disabled` state. -/
theorem release_unavailable_in_disabled :
    available InitState.disabled RngOp.release = false := by
  decide

/-- Claim C1 (amended): `release` is available in the `Enabled` typestate
only; there it consumes the handle and returns the underlying raw register
block unchanged. -/
theorem release_enabled_only_returns_raw :
    available InitState.enabled RngOp.release = true ∧
      ∀ r : Rng InitState.enabled, r.release = r.raw :=
  ⟨by decide, fun _ => rfl⟩

/-- Claim C2: dereferencing a proxy for a capability descriptor always
yields the descriptor's fixed address, for every proxy value (hence from
any owning context and on every call), and likewise for cluster proxies:
dereference is referentially transparent and repeatable. -/
theorem proxy_deref_returns_descriptor_address (d : Reg) (c : RegCluster)
    (p p' : RegProxy d) (q q' : RegClusterProxy c) :
    RegProxy.deref d p = d.get ∧
      RegProxy.deref d p = RegProxy.deref d p' ∧
      RegClusterProxy.deref c q = (c.get, c.len) ∧
      RegClusterProxy.deref c q = RegClusterProxy.deref c q' :=
  ⟨rfl, rfl, rfl, rfl⟩

/-- Claim C3: when the single-random-word operation returns, its 32 loop
iterations each waited for a non-zero refresh counter: exactly 32 of the
reads it performed (so at least 32 reads) observed a non-zero refresh
counter, and the returned word is exactly the value the random-value
register holds at the read that follows the final poll. -/
theorem get_random_u32_polls_32_then_reads (refresh random : Nat → Nat)
    (t0 fuel v tEnd : Nat)
    (h : get_random_u32 refresh random t0 fuel = some (v, tEnd)) :
    ∃ t1, tEnd = t1 + 1 ∧ v = random t1 ∧ t0 + 32 ≤ t1 ∧
      nonzeroObs refresh t0 (t1 - t0) = 32 := by
  rw [get_random_u32] at h
  cases hp : pollRounds refresh fuel t0 32 with
  | none => rw [hp] at h; cases h
  | some t1 =>
    rw [hp] at h
    obtain ⟨hv, ht⟩ : random t1 = v ∧ t1 + 1 = tEnd := by
      constructor <;> injection h with h1 <;> injection h1
    obtain ⟨hle, hcnt⟩ := pollRounds_spec refresh fuel 32 t0 t1 hp
    exact ⟨t1, ht.symm, hv.symm, hle, hcnt⟩

/-- Witness for claim C3: on the trace where the refresh counter is zero
for the first three reads and non-zero afterwards, the operation finishes
after read 36, having observed 32 non-zero polls, and returns the
random-value register's content at read 35. -/
theorem get_random_u32_polls_witness :
    ∃ t1, 36 = t1 + 1 ∧ 245 = wRandom t1 ∧ 0 + 32 ≤ t1 ∧
      nonzeroObs wRefresh 0 (t1 - 0) = 32 :=
  get_random_u32_polls_32_then_reads wRefresh wRandom 0 40 245 36 (by decide)

/-- Claim C4: the buffer-fill loop on an empty buffer performs zero
random-word reads and leaves the buffer untouched; on a 6-byte buffer it
performs exactly 2 random-word reads and writes the four native-order
(little-endian) bytes of the first word followed by the first two
native-order bytes of the second word. -/
theorem read_zero_and_six_byte_buffers (words : Nat → Nat)
    (b0 b1 b2 b3 b4 b5 : Nat) :
    read words 0 [] = Except.ok ([], 0) ∧
      read words 0 [b0, b1, b2, b3, b4, b5] =
        Except.ok
          ([words 0 % 256, words 0 / 2 ^ 8 % 256, words 0 / 2 ^ 16 % 256,
            words 0 / 2 ^ 24 % 256, words 1 % 256, words 1 / 2 ^ 8 % 256], 2) :=
  ⟨rfl, rfl⟩

/-- Claim C5: the buffer-fill operation always returns the success branch,
and its error type `Error` is uninhabited, so the error branch of the
`Result` can never be taken. -/
theorem read_always_succeeds_error_uninhabited :
    (∀ (words : Nat → Nat) (k : Nat) (buffer : List Nat),
        ∃ v, read words k buffer = Except.ok v) ∧
      IsEmpty Error :=
  ⟨fun words k buffer => ⟨readLoop words buffer.length k buffer, rfl⟩,
    ⟨fun e => nomatch e⟩⟩

/-- Claim C6: wrapping a raw register block, enabling, then disabling
yields a `Disabled` handle whose underlying raw block is identical (the
same identity token) to the block originally wrapped: the round-trip
preserves ownership without loss or duplication. -/
theorem wrap_enabled_disabled_roundtrip (r : RNG) (sc : Syscon) :
    ((((wrap r).enabled sc).1.disabled ((wrap r).enabled sc).2).1).raw = r :=
  rfl

/-- Claim C7, counterexample: the spec's operation set for the `Disabled`
state is {enabled, release}, but on the code `release` is not available
there (while `enabled` is): the bare `impl Rng` block holding `release`
attaches to `Rng<init_state::Enabled>` via the type-parameter default. -/
theorem disabled_state_claimed_ops_wrong :
    available InitState.disabled RngOp.enabled = true ∧
      available InitState.disabled RngOp.release = false := by
  decide

/-- Claim C7 (amended): the state machine is total and exhaustive with, from
`Disabled`, only the `enabled` transition publicly reachable, and from
`Enabled`, only the `disabled` transition, `release`, and the
peripheral-specific operations (identification query, single random word,
buffer fill); no `Enabled`-only operation is available on a `Disabled`
handle. -/
theorem state_machine_available_ops :
    (∀ op, available InitState.disabled op = true ↔ op = RngOp.enabled) ∧
      ∀ op, available InitState.enabled op = true ↔
        (op = RngOp.disabled ∨ op = RngOp.release ∨ op = RngOp.module_id ∨
          op = RngOp.get_random_u32 ∨ op = RngOp.read) := by
  constructor <;> intro op <;> cases op <;> decide

/-- Claim C8: proxy construction takes no runtime data, cannot fail, and
performs zero hardware accesses: building `n` proxies (single-register or
cluster) for one descriptor yields `n` proxy values and an empty access
trace, and all proxy values for a descriptor are equal (the type is a
zero-sized marker). -/
theorem proxy_construction_no_hardware_access (d : Reg) (c : RegCluster) (n : Nat) :
    (constructProxies d n).2 = [] ∧ (constructProxies d n).1.length = n ∧
      (constructClusterProxies c n).2 = [] ∧
      (constructClusterProxies c n).1.length = n ∧
      ∀ p p' : RegProxy d, p = p' := by
  refine ⟨?_, ?_, ?_, ?_, fun p p' => rfl⟩ <;>
    · induction n with
      | zero => rfl
      | succ n ih => simp [constructProxies, constructClusterProxies,
          RegProxy.newTraced, RegClusterProxy.newTraced, ih]

/-- Claim C9: the `Send` impls for both proxy types are declared
unconditionally — for every capability descriptor, with no trait bound
beyond the capability trait itself — and transferring a proxy between
owning contexts cannot change behaviour, since dereference yields the same
address for every proxy value of the descriptor. -/
theorem proxy_send_unconditional (d : Reg) (c : RegCluster)
    (p p' : RegProxy d) (q q' : RegClusterProxy c) :
    regProxySendImpl = ⟨true, 0⟩ ∧ regClusterProxySendImpl = ⟨true, 0⟩ ∧
      RegProxy.deref d p = RegProxy.deref d p' ∧
      RegClusterProxy.deref c q = RegClusterProxy.deref c q' :=
  ⟨rfl, rfl, rfl, rfl⟩

/-- Claim C10: the identification query performs four separate reads of the
module-identification register — the returned counter advances by four, and
each field of the result comes from its own read (`id` from read `t`,
`maj_rev` from `t+1`, `min_rev` from `t+2`, `aperture` from `t+3`).
Consequently the fields need not come from one snapshot: on the trace whose
reads return ever-increasing snapshots, the returned record differs from
the single-snapshot record of every read. -/
theorem module_id_four_independent_reads :
    (∀ (m : Nat → RawModuleIdFields) (t : Nat),
        (module_id m t).2 = t + 4 ∧
          (module_id m t).1 =
            ⟨(m t).id, (m (t + 1)).maj_rev, (m (t + 2)).min_rev,
              (m (t + 3)).aperture⟩) ∧
      ∀ t' : Nat,
        (module_id snapshotTrace 0).1 ≠
          ⟨(snapshotTrace t').id, (snapshotTrace t').maj_rev,
            (snapshotTrace t').min_rev, (snapshotTrace t').aperture⟩ := by
  refine ⟨fun m t => ⟨rfl, rfl⟩, fun t' h => ?_⟩
  simp [module_id, snapshotTrace, ModuleId.mk.injEq] at h
  omega

end Lpc55Hal
